import Mathlib

/-!
Verification of the MemMachine Cursor extension core: the episodic and
profile memory tree providers (`EpisodicMemoryTreeProvider` in the
extension sources, `ProfileMemoryTreeProvider` in
`src/profileMemoryTreeProvider.ts`) and the MCP registration manager
(`MCPServerManager`).

The TypeScript code is shallowly embedded:
- JSON payloads (`any` values at the API boundary) are the inductive `Json`.
- JS truthiness, `||`, property access, `===` against string literals,
  template-literal string coercion and `JSON.stringify(_, null, 2)` are
  modelled by `jsTruthy`, `jsOr`, `jsGet`, equality on `Json`,
  `jsTemplate` and `stringifyJson`.
- Tree items (`EpisodicMemoryItem` / `ProfileMemoryItem`) are the `Item`
  structure; display-only fields of the original classes (tooltip,
  description, icon, command, collapsible state) carry no tree-shape
  information and are omitted.
- `async` methods are state-transition functions; the result of the one
  external call a method performs (HTTP fetch, host capability call,
  settings write) is passed in as an `Except`/`Option` argument.
- `this._onDidChangeTreeData.fire()` is modelled by recording a snapshot
  (loading flag, node list) of the observable state at the fire point.
-/

/-- A JSON value as delivered by the MemMachine API.  Object fields are an
association list in insertion order (JS object key order); numbers are
modelled as integers (the code performs no arithmetic on payload numbers).
`Json.null` also stands for JS `undefined` where the code only ever asks
for truthiness or compares against string literals. -/
inductive Json where
  | null
  | bool (b : Bool)
  | num (n : Int)
  | str (s : String)
  | arr (elems : List Json)
  | obj (fields : List (String × Json))

/-- Decidable equality for `Json` (the automatic deriving handler does not
support this nested inductive). -/
def Json.decEq : (a b : Json) → Decidable (a = b)
  | .null, .null => isTrue rfl
  | .null, .bool _ => isFalse (fun h => Json.noConfusion h)
  | .null, .num _ => isFalse (fun h => Json.noConfusion h)
  | .null, .str _ => isFalse (fun h => Json.noConfusion h)
  | .null, .arr _ => isFalse (fun h => Json.noConfusion h)
  | .null, .obj _ => isFalse (fun h => Json.noConfusion h)
  | .bool _, .null => isFalse (fun h => Json.noConfusion h)
  | .bool a, .bool b =>
    if h : a = b then isTrue (by rw [h]) else isFalse (fun hh => h (by cases hh; rfl))
  | .bool _, .num _ => isFalse (fun h => Json.noConfusion h)
  | .bool _, .str _ => isFalse (fun h => Json.noConfusion h)
  | .bool _, .arr _ => isFalse (fun h => Json.noConfusion h)
  | .bool _, .obj _ => isFalse (fun h => Json.noConfusion h)
  | .num _, .null => isFalse (fun h => Json.noConfusion h)
  | .num _, .bool _ => isFalse (fun h => Json.noConfusion h)
  | .num a, .num b =>
    if h : a = b then isTrue (by rw [h]) else isFalse (fun hh => h (by cases hh; rfl))
  | .num _, .str _ => isFalse (fun h => Json.noConfusion h)
  | .num _, .arr _ => isFalse (fun h => Json.noConfusion h)
  | .num _, .obj _ => isFalse (fun h => Json.noConfusion h)
  | .str _, .null => isFalse (fun h => Json.noConfusion h)
  | .str _, .bool _ => isFalse (fun h => Json.noConfusion h)
  | .str _, .num _ => isFalse (fun h => Json.noConfusion h)
  | .str a, .str b =>
    if h : a = b then isTrue (by rw [h]) else isFalse (fun hh => h (by cases hh; rfl))
  | .str _, .arr _ => isFalse (fun h => Json.noConfusion h)
  | .str _, .obj _ => isFalse (fun h => Json.noConfusion h)
  | .arr _, .null => isFalse (fun h => Json.noConfusion h)
  | .arr _, .bool _ => isFalse (fun h => Json.noConfusion h)
  | .arr _, .num _ => isFalse (fun h => Json.noConfusion h)
  | .arr _, .str _ => isFalse (fun h => Json.noConfusion h)
  | .arr as, .arr bs =>
    match goList as bs with
    | isTrue h => isTrue (by rw [h])
    | isFalse h => isFalse (fun hh => h (by cases hh; rfl))
  | .arr _, .obj _ => isFalse (fun h => Json.noConfusion h)
  | .obj _, .null => isFalse (fun h => Json.noConfusion h)
  | .obj _, .bool _ => isFalse (fun h => Json.noConfusion h)
  | .obj _, .num _ => isFalse (fun h => Json.noConfusion h)
  | .obj _, .str _ => isFalse (fun h => Json.noConfusion h)
  | .obj _, .arr _ => isFalse (fun h => Json.noConfusion h)
  | .obj as, .obj bs =>
    match goFields as bs with
    | isTrue h => isTrue (by rw [h])
    | isFalse h => isFalse (fun hh => h (by cases hh; rfl))
where
  goList : (as bs : List Json) → Decidable (as = bs)
    | [], [] => isTrue rfl
    | [], _ :: _ => isFalse (fun h => List.noConfusion h)
    | _ :: _, [] => isFalse (fun h => List.noConfusion h)
    | a :: as, b :: bs =>
      match Json.decEq a b, goList as bs with
      | isTrue h1, isTrue h2 => isTrue (by rw [h1, h2])
      | isFalse h1, _ => isFalse (fun h => h1 (by cases h; rfl))
      | _, isFalse h2 => isFalse (fun h => h2 (by cases h; rfl))
  goFields : (as bs : List (String × Json)) → Decidable (as = bs)
    | [], [] => isTrue rfl
    | [], _ :: _ => isFalse (fun h => List.noConfusion h)
    | _ :: _, [] => isFalse (fun h => List.noConfusion h)
    | (k1, a) :: as, (k2, b) :: bs =>
      if hk : k1 = k2 then
        match Json.decEq a b, goFields as bs with
        | isTrue h1, isTrue h2 => isTrue (by rw [hk, h1, h2])
        | isFalse h1, _ => isFalse (fun h => h1 (by cases h; rfl))
        | _, isFalse h2 => isFalse (fun h => h2 (by cases h; rfl))
      else isFalse (fun h => hk (by cases h; rfl))

instance : DecidableEq Json := Json.decEq

/-- Decidable equality for `Except` results (used to evaluate the parse
functions on concrete payloads). -/
def exceptDecEq {ε α : Type} [DecidableEq ε] [DecidableEq α] :
    (a b : Except ε α) → Decidable (a = b)
  | .error e, .error f =>
    if h : e = f then isTrue (by rw [h]) else isFalse (fun hh => h (by cases hh; rfl))
  | .error _, .ok _ => isFalse (fun h => Except.noConfusion h)
  | .ok _, .error _ => isFalse (fun h => Except.noConfusion h)
  | .ok a, .ok b =>
    if h : a = b then isTrue (by rw [h]) else isFalse (fun hh => h (by cases hh; rfl))

instance {ε α : Type} [DecidableEq ε] [DecidableEq α] : DecidableEq (Except ε α) :=
  exceptDecEq

/-- JS truthiness of a payload value (`if (x)`, `x && y`, `x || y`).
`null`/`undefined`, `false`, `0` and `""` are falsy; every object and
array is truthy. -/
def jsTruthy : Json → Bool
  | .null => false
  | .bool b => b
  | .num n => decide (n ≠ 0)
  | .str s => decide (s ≠ "")
  | .arr _ => true
  | .obj _ => true

/-- JS `a || b`: the left operand when truthy, otherwise the right. -/
def jsOr (a b : Json) : Json :=
  if jsTruthy a then a else b

/-- First binding of a key in a JS object's field list (JS object keys are
unique, so first = only). -/
def lookupField : List (String × Json) → String → Option Json
  | [], _ => none
  | (k, v) :: rest, key => if k = key then some v else lookupField rest key

/-- JS property access `x.key` on a payload value: the field value on an
object, `undefined` (modelled as `.null`) on non-null primitives and
arrays.  Property access on JS `null`/`undefined` itself throws a
TypeError; `jsGet` stays total, and each access site whose receiver can
actually be null — the per-record field reads in the two `parseMemories`,
reachable with a `null` element of the selected record array — models
that throw explicitly by testing the record for `.null` (see the parse
functions below). -/
def jsGet : Json → String → Json
  | .obj fs, key => (lookupField fs key).getD .null
  | _, _ => .null

/-- A chain `x.k1 || x.k2 || ... || fallback` of field probes, as written
out literally in the title/content/identifier extraction: the value of
the first key whose value is truthy, else the fallback. -/
def firstTruthy (m : Json) (keys : List String) (fallback : Json) : Json :=
  match keys with
  | [] => fallback
  | k :: rest => jsOr (jsGet m k) (firstTruthy m rest fallback)

/-- Model of `Object.values(x)`: field values of an object in key order, elements
of an array, one-character strings for a string, `[]` for other
primitives. -/
def jsValues : Json → List Json
  | .obj fs => fs.map (fun f => f.2)
  | .arr l => l
  | .str s => s.data.map (fun c => .str (String.mk [c]))
  | _ => []

/-- JS `typeof item === "object" && item !== null`: true for objects and
arrays (JS arrays have typeof `"object"`), false for `null` and all other
primitives. -/
def jsIsObjectLike : Json → Bool
  | .obj _ => true
  | .arr _ => true
  | _ => false

/-- JS template-literal / `String(x)` coercion of a payload value.
Arrays stringify as their elements joined by commas with `null` elements
becoming empty strings; objects as `[object Object]`. -/
def jsTemplate : Json → String
  | .null => "null"
  | .bool b => cond b "true" "false"
  | .num n => toString n
  | .str s => s
  | .arr l => String.intercalate "," (goArr l)
  | .obj _ => "[object Object]"
where
  goArr : List Json → List String
    | [] => []
    | .null :: rest => "" :: goArr rest
    | j :: rest => jsTemplate j :: goArr rest

/-- JS coercion of a possibly-`undefined` value inside a template literal
(`undefined` prints as the string `undefined`). -/
def optTemplate : Option Json → String
  | none => "undefined"
  | some j => jsTemplate j

/-- Truthiness of a possibly-`undefined` value (`element.memoryId && ...`). -/
def optTruthy : Option Json → Bool
  | none => false
  | some j => jsTruthy j

/-- Indentation: `n` spaces. -/
def pad (n : Nat) : String :=
  String.mk (List.replicate n ' ')

/-- JSON string escaping as performed by `JSON.stringify` (quote,
backslash, newline, carriage return, tab; `\u` escapes for the remaining
control characters are not modelled, no payload in any theorem contains
them). -/
def escapeChars : List Char → String
  | [] => ""
  | c :: cs =>
    (if c = '"' then "\\\""
     else if c = '\\' then "\\\\"
     else if c = '\n' then "\\n"
     else if c = '\r' then "\\r"
     else if c = '\t' then "\\t"
     else String.mk [c]) ++ escapeChars cs

/-- A JSON-quoted string literal. -/
def quoteJson (s : String) : String :=
  "\"" ++ escapeChars s.data ++ "\""

/-- Model of `JSON.stringify(value, null, 2)`: pretty-printed JSON with
two-space indentation, as used for the record-content fallback and not
otherwise. -/
def stringifyJson (j : Json) : String :=
  go 0 j
where
  go (ind : Nat) : Json → String
    | .null => "null"
    | .bool b => cond b "true" "false"
    | .num n => toString n
    | .str s => quoteJson s
    | .arr [] => "[]"
    | .arr (e :: rest) =>
      "[\n" ++ String.intercalate ",\n" (goArr (ind + 2) (e :: rest)) ++
        "\n" ++ pad ind ++ "]"
    | .obj [] => "\x7b\x7d"
    | .obj (f :: rest) =>
      "\x7b\n" ++ String.intercalate ",\n" (goObj (ind + 2) (f :: rest)) ++
        "\n" ++ pad ind ++ "\x7d"
  goArr (ind : Nat) : List Json → List String
    | [] => []
    | e :: rest => (pad ind ++ go ind e) :: goArr ind rest
  goObj (ind : Nat) : List (String × Json) → List String
    | [] => []
    | (k, v) :: rest => (pad ind ++ quoteJson k ++ ": " ++ go ind v) :: goObj ind rest

/-! ## String orderings

`Array.prototype.sort` in `ProfileMemoryTreeProvider.parseMemories` uses
the comparator `a.label.localeCompare(b.label)`.  `localeCompare` with no
arguments (default locale, default options) follows the ICU root/English
collation: letters are compared case-insensitively at primary strength and
case breaks primary ties (lowercase before uppercase).  We model it for
ASCII data through a collation key: primary weights of all characters,
then a separator, then case weights.  The plain code-unit ordering
(`<` on JS strings, the "default" string order) is `codeUnitLe`. -/

/-- Lexicographic ordering on weight lists (`a ≤ b`). -/
def lexLe : List Nat → List Nat → Bool
  | [], _ => true
  | _ :: _, [] => false
  | a :: as, b :: bs =>
    if a < b then true
    else if b < a then false
    else lexLe as bs

/-- Primary collation weight of a character: its code point with ASCII
uppercase folded to lowercase (shifted so every weight is positive). -/
def charPrimary (c : Char) : Nat :=
  (if 'A' ≤ c ∧ c ≤ 'Z' then c.toNat + 32 else c.toNat) + 1

/-- Tertiary (case) collation weight: lowercase before uppercase. -/
def charTertiary (c : Char) : Nat :=
  if 'A' ≤ c ∧ c ≤ 'Z' then 2 else 1

/-- Collation key modelling `localeCompare` with default options: compare
all primary weights first, then (on a full primary tie) the case weights.
The `0` separator makes a string a strict prefix-minimum of its
extensions. -/
def locKey (s : String) : List Nat :=
  s.data.map charPrimary ++ 0 :: s.data.map charTertiary

/-- Character-list version of `String.prototype.startsWith` (the library
`String.startsWith` is not kernel-reducible). -/
def leadChars : List Char → List Char → Bool
  | [], _ => true
  | _ :: _, [] => false
  | p :: ps, c :: cs => p == c && leadChars ps cs

/-- Model of `s.startsWith(p)`. -/
def strBegins (s p : String) : Bool :=
  leadChars p.data s.data

/-- Model of `a.localeCompare(b) <= 0`, i.e. `a` sorts no later than `b` under the
default-locale collation. -/
def locLe (a b : String) : Bool :=
  lexLe (locKey a) (locKey b)

/-- Plain code-unit string ordering: JS `a <= b`, the case-sensitive
default string comparison (and the order of `Array.prototype.sort`
without a comparator). -/
def codeUnitLe (a b : String) : Bool :=
  lexLe (a.data.map Char.toNat) (b.data.map Char.toNat)

/-- Stable insertion into a list sorted by `le` (model of
`Array.prototype.sort`, which is required to be stable and to produce a
sequence ordered by the comparator). -/
def insLe {α : Type} (le : α → α → Bool) (a : α) : List α → List α
  | [] => [a]
  | b :: l => if le a b then a :: b :: l else b :: insLe le a l

/-- Stable insertion sort by `le`. -/
def sortLe {α : Type} (le : α → α → Bool) : List α → List α
  | [] => []
  | a :: l => insLe le a (sortLe le l)

/-! ## Tree items and tree state -/

/-- A tree row, shared shape of `EpisodicMemoryItem` and
`ProfileMemoryItem` (the two classes declare the same data fields; the
profile variant adds `contextValue` as a constructor parameter and a
dynamically attached `tagMemories` array on tag-group items).  Display
fields (tooltip, description, icon, command, collapsible state) are
omitted.  `label`, `content` and `memoryId` are typed `string` in the
source but receive raw payload values at runtime, hence `Json` here;
`none` models `undefined`. -/
structure Item where
  label : Json
  content : Json
  memoryId : Option Json := none
  isDetail : Bool := false
  contextValue : String := "profileMemory"
  tagMemories : Option (List Json) := none
deriving DecidableEq

/-- Mutable state of one tree provider: `_memories` and `_isLoading`. -/
structure TreeState where
  memories : List Item
  isLoading : Bool
deriving DecidableEq

/-- Structured failure from the `ApiClient` (interface `ApiError`). -/
structure ApiError where
  message : String
  status : Option Int := none
  statusText : Option String := none
deriving DecidableEq

/-- Successful response from the `ApiClient` (interface `ApiResponse`). -/
structure ApiResponse where
  data : Json
  status : Int
  statusText : String
deriving DecidableEq

/-- Observable state captured at a `_onDidChangeTreeData.fire()` call:
the loading flag and the node list at that moment. -/
abbrev Snapshot := Bool × List Item

/-- Array test used by the container probes (`Array.isArray`). -/
def asArr : Json → Option (List Json)
  | .arr l => some l
  | _ => none

/-- One container-key probe: `data.k && Array.isArray(data.k)` succeeds
exactly when the field holds an array (arrays are always truthy). -/
def probeKey (data : Json) (k : String) : Option (List Json) :=
  asArr (jsGet data k)

/-- The payload-container probing shared verbatim by both providers'
`parseMemories` (they differ only in the domain-specific key,
`episodic_memory` vs `profile_memory`): a bare array is used directly;
otherwise the keys `memories`, the domain key, `data`, `results` are
probed in order and the first array-valued one is used; otherwise all
object- or array-valued fields of the payload are taken
(`Object.values(data).filter(item => typeof item === "object" && item !== null)`). -/
def selectMemories (domainKey : String) (data : Json) : List Json :=
  match data with
  | .arr l => l
  | _ =>
    match probeKey data "memories" with
    | some l => l
    | none =>
      match probeKey data domainKey with
      | some l => l
      | none =>
        match probeKey data "data" with
        | some l => l
        | none =>
          match probeKey data "results" with
          | some l => l
          | none => (jsValues data).filter jsIsObjectLike

/-- Embedding of `createMemoryDetailItems`, duplicated verbatim in both provider
classes (the profile copy constructs `ProfileMemoryItem`s whose
`contextValue` defaults to `profileMemory`; the episodic copy constructs
`EpisodicMemoryItem`s, `contextValue` `episodicMemory`): an optional
content leaf (omitted when the content is falsy or one of the sentinels
`empty`/`error`), an id leaf when the id is truthy, and a timestamp leaf
built from the wall clock (`new Date().toLocaleString()`, passed in here
as `now`). -/
def createMemoryDetailItems (memoryItem : Item) (now : String) (cv : String) : List Item :=
  (if jsTruthy memoryItem.content ∧ memoryItem.content ≠ .str "empty" ∧
      memoryItem.content ≠ .str "error" then
    [{ label := .str "📄 Content", content := memoryItem.content,
       memoryId := some (.str (optTemplate memoryItem.memoryId ++ "-content")),
       isDetail := true, contextValue := cv }]
  else []) ++
  (if optTruthy memoryItem.memoryId then
    [{ label := .str "🆔 ID", content := memoryItem.memoryId.getD .null,
       memoryId := some (.str (optTemplate memoryItem.memoryId ++ "-id")),
       isDetail := true, contextValue := cv }]
  else []) ++
  [{ label := .str "⏰ Timestamp", content := .str now,
     memoryId := some (.str (optTemplate memoryItem.memoryId ++ "-timestamp")),
     isDetail := true, contextValue := cv }]

namespace Episodic

/-- The refresh sentinel row unshifted by `getChildren` when idle. -/
def refreshItem : Item :=
  { label := .str "Refresh", content := .str "Click to refresh episodic memories",
    memoryId := some (.str "refresh"), contextValue := "episodicMemory" }

/-- The loading sentinel row unshifted by `getChildren` while fetching. -/
def loadingItem : Item :=
  { label := .str "Loading...", content := .str "Refreshing episodic memories...",
    memoryId := some (.str "loading"), contextValue := "episodicMemory" }

/-- The empty-payload sentinel row (`No memories found`). -/
def emptyItem : Item :=
  { label := .str "No memories found", content := .str "empty",
    contextValue := "episodicMemory" }

/-- The fetch-failure sentinel row. -/
def errorItem : Item :=
  { label := .str "Error loading memories", content := .str "error",
    contextValue := "episodicMemory" }

/-- Title probe of `parseMemories`:
`memory.title || memory.name || memory.subject || memory.heading || memory.label || `Memory n``. -/
def titleOf (m : Json) (index : Nat) : Json :=
  jsOr (jsGet m "title") (jsOr (jsGet m "name") (jsOr (jsGet m "subject")
    (jsOr (jsGet m "heading") (jsOr (jsGet m "label")
      (.str ("Memory " ++ toString (index + 1)))))))

/-- Content probe of `parseMemories`:
`memory.content || memory.description || memory.text || memory.body || memory.message || memory.details || memory.summary || JSON.stringify(memory, null, 2)`. -/
def contentOf (m : Json) : Json :=
  jsOr (jsGet m "content") (jsOr (jsGet m "description") (jsOr (jsGet m "text")
    (jsOr (jsGet m "body") (jsOr (jsGet m "message") (jsOr (jsGet m "details")
      (jsOr (jsGet m "summary") (.str (stringifyJson m))))))))

/-- Identifier probe of `parseMemories`:
`memory.id || memory.uuid || memory.key || index.toString()`. -/
def idOf (m : Json) (index : Nat) : Json :=
  jsOr (jsGet m "id") (jsOr (jsGet m "uuid") (jsOr (jsGet m "key")
    (.str (toString index))))

/-- Embedding of `EpisodicMemoryTreeProvider.parseMemories`.  Two
per-record statements can throw, and either exception escapes
`parseMemories` (to be caught by `loadMemories`); both are modelled by
`Except.error` branches, in evaluation order:
first, `memory.title` — the very first field read — throws a `TypeError`
when the selected record is JS `null`;
second, the debug `console.log` calls `content.substring(0, 100)`, which
throws a `TypeError` when the content probe produced a truthy non-string
value. -/
def parseMemories (data : Json) : Except String (List Item) :=
  if jsTruthy data = false then .ok [emptyItem]
  else
    let memories := selectMemories "episodic_memory" data
    if memories.length = 0 then .ok [emptyItem]
    else
      memories.enum.mapM fun p =>
        if p.2 = Json.null then
          .error "TypeError: Cannot read properties of null"
        else
          let title := titleOf p.2 p.1
          let content := contentOf p.2
          let id := idOf p.2 p.1
          match content with
          | .str s =>
            .ok { label := title, content := .str s, memoryId := some id,
                  contextValue := "episodicMemory" }
          | _ => .error "TypeError: content.substring is not a function"

/-- Embedding of `EpisodicMemoryTreeProvider.getChildren`.  With no element: the
refresh/loading sentinel unshifted onto a copy of `_memories`.  With an
element: its detail items when its `memoryId` is truthy and is neither
`refresh` nor `loading` (note the code does not test `isDetail`), else
`[]`. -/
def getChildren (st : TreeState) (element : Option Item) (now : String) : List Item :=
  match element with
  | none => (if st.isLoading then loadingItem else refreshItem) :: st.memories
  | some el =>
    if optTruthy el.memoryId ∧ el.memoryId ≠ some (.str "refresh") ∧
        el.memoryId ≠ some (.str "loading") then
      createMemoryDetailItems el now "episodicMemory"
    else []

/-- The node list installed by `loadMemories` after the fetch completes:
the parse result on success, and the single error row when the fetch
rejected or `parseMemories` threw. -/
def newMemories (resp : Except ApiError ApiResponse) : List Item :=
  match resp with
  | .ok r =>
    match parseMemories r.data with
    | .ok items => items
    | .error _ => [errorItem]
  | .error _ => [errorItem]

/-- Embedding of `EpisodicMemoryTreeProvider.loadMemories`: sets `_isLoading`, fires,
awaits the fetch (its outcome is the `resp` argument), installs the new
node list (error row on any exception), and in `finally` clears
`_isLoading` and fires again.  Returns the final state and the snapshots
observed at the two fire points. -/
def loadMemories (st : TreeState) (resp : Except ApiError ApiResponse) :
    TreeState × List Snapshot :=
  let st1 : TreeState := { st with isLoading := true }
  let fire1 : Snapshot := (st1.isLoading, st1.memories)
  let st2 : TreeState := { st1 with memories := newMemories resp }
  let st3 : TreeState := { st2 with isLoading := false }
  let fire2 : Snapshot := (st3.isLoading, st3.memories)
  (st3, [fire1, fire2])

/-- The method `refresh()` simply invokes `loadMemories` (fire-and-forget); it never
inspects or rethrows its outcome. -/
def refresh (st : TreeState) (resp : Except ApiError ApiResponse) :
    TreeState × List Snapshot :=
  loadMemories st resp

end Episodic

namespace Profile

/-- The refresh sentinel row of the profile tree. -/
def refreshItem : Item :=
  { label := .str "Refresh", content := .str "Click to refresh profile memories",
    memoryId := some (.str "refresh") }

/-- The loading sentinel row of the profile tree. -/
def loadingItem : Item :=
  { label := .str "Loading...", content := .str "Refreshing profile memories...",
    memoryId := some (.str "loading") }

/-- The empty-payload sentinel row (`No profile memories found`). -/
def emptyItem : Item :=
  { label := .str "No profile memories found", content := .str "empty" }

/-- The fetch-failure sentinel row of the profile tree. -/
def errorItem : Item :=
  { label := .str "Error loading profile memories", content := .str "error" }

/-- Tag assignment in `parseMemories`: `memory.tag || "Uncategorized"`. -/
def tagOf (m : Json) : Json :=
  jsOr (jsGet m "tag") (.str "Uncategorized")

/-- One step of the `tagGroups` map construction: append the record to
its key's bucket, creating the bucket at the end on first sight (JS `Map`
preserves first-insertion order).  Key equality is structural, matching
the `Map`'s SameValueZero semantics on the primitive tag values the
claims concern (reference identity of object-valued tags is not
modelled). -/
def addToGroups (gs : List (Json × List Json)) (key : Json) (m : Json) :
    List (Json × List Json) :=
  match gs with
  | [] => [(key, [m])]
  | (k, ms) :: rest =>
    if k = key then (k, ms ++ [m]) :: rest
    else (k, ms) :: addToGroups rest key m

/-- The `tagGroups` map after the `memories.forEach` loop, as an
insertion-ordered association list. -/
def groupsOf (memories : List Json) : List (Json × List Json) :=
  memories.foldl (fun gs m => addToGroups gs (tagOf m) m) []

/-- The tag-group row built for one map entry: label `` `${tag}` ``,
content `` `${tagMemories.length} item(s)` ``, id `` `tag-${tag}` ``,
`contextValue` `tag-group`, with the bucket attached as `tagMemories`. -/
def mkTagGroupItem (g : Json × List Json) : Item :=
  { label := .str (jsTemplate g.1),
    content := .str (toString g.2.length ++ " item(s)"),
    memoryId := some (.str ("tag-" ++ jsTemplate g.1)),
    contextValue := "tag-group",
    tagMemories := some g.2 }

/-- The label a tag-group comparator argument exposes (`a.label`); the
labels reaching the sort are always strings built by `mkTagGroupItem`. -/
def labelStr (j : Json) : String :=
  match j with
  | .str s => s
  | j => jsTemplate j

/-- The sort comparator `(a, b) => a.label.localeCompare(b.label)` as a
boolean "sorts-no-later-than" relation. -/
def itemLe (a b : Item) : Bool :=
  locLe (labelStr a.label) (labelStr b.label)

/-- Embedding of `ProfileMemoryTreeProvider.parseMemories`: shared container probing,
empty sentinels, grouping by tag, one tag-group row per bucket, sorted
with `a.label.localeCompare(b.label)`.  The grouping loop reads
`memory.tag`, which throws a `TypeError` at the first JS-`null` element
of the selected record list; the exception escapes `parseMemories`
before any group row is built (to be caught by `loadMemories`), so the
result is an error exactly when some selected record is null — modelled
by the membership test. -/
def parseMemories (data : Json) : Except String (List Item) :=
  if jsTruthy data = false then .ok [emptyItem]
  else
    let memories := selectMemories "profile_memory" data
    if memories.length = 0 then .ok [emptyItem]
    else if Json.null ∈ memories then
      .error "TypeError: Cannot read properties of null"
    else .ok (sortLe itemLe ((groupsOf memories).map mkTagGroupItem))

/-- Title probe for a record row under a tag group:
`memory.feature || memory.title || memory.name || `Item n``. -/
def childTitleOf (m : Json) (index : Nat) : Json :=
  jsOr (jsGet m "feature") (jsOr (jsGet m "title") (jsOr (jsGet m "name")
    (.str ("Item " ++ toString (index + 1)))))

/-- Content probe for a record row under a tag group:
`memory.value || memory.content || memory.description || JSON.stringify(memory, null, 2)`. -/
def childContentOf (m : Json) : Json :=
  jsOr (jsGet m "value") (jsOr (jsGet m "content") (jsOr (jsGet m "description")
    (.str (stringifyJson m))))

/-- Identifier probe for a record row under a tag group:
`memory.id || memory.uuid || memory.key || `${element.memoryId}-${index}``. -/
def childIdOf (parent : Item) (m : Json) (index : Nat) : Json :=
  jsOr (jsGet m "id") (jsOr (jsGet m "uuid") (jsOr (jsGet m "key")
    (.str (optTemplate parent.memoryId ++ "-" ++ toString index))))

/-- Embedding of `ProfileMemoryTreeProvider.getChildren`.  No element: sentinel
unshifted onto `_memories`.  A tag-group element (truthy `memoryId`
starting with `tag-`): its attached records mapped to record rows (or
`[]` when no `tagMemories` array is attached).  A record element (truthy
`memoryId`, not a sentinel, not `tag-`-prefixed): its detail items.
Anything else: `[]`.  The per-record probes of the tag-group branch read
fields of the attached records; every `tagMemories` bucket the provider
builds is null-free (a null selected record already made `parseMemories`
throw), so those reads cannot hit a null receiver on provider-built
items. -/
def getChildren (st : TreeState) (element : Option Item) (now : String) : List Item :=
  match element with
  | none => (if st.isLoading then loadingItem else refreshItem) :: st.memories
  | some el =>
    if optTruthy el.memoryId ∧ strBegins (optTemplate el.memoryId) "tag-" then
      match el.tagMemories with
      | some tagMemories =>
        tagMemories.enum.map fun p =>
          { label := childTitleOf p.2 p.1, content := childContentOf p.2,
            memoryId := some (childIdOf el p.2 p.1) }
      | none => []
    else if optTruthy el.memoryId ∧ el.memoryId ≠ some (.str "refresh") ∧
        el.memoryId ≠ some (.str "loading") ∧
        strBegins (optTemplate el.memoryId) "tag-" = false then
      createMemoryDetailItems el now "profileMemory"
    else []

/-- The node list installed by the profile `loadMemories` after the fetch
completes: the parse result on success, and the single error row when
the fetch rejected or `parseMemories` threw. -/
def newMemories (resp : Except ApiError ApiResponse) : List Item :=
  match resp with
  | .ok r =>
    match parseMemories r.data with
    | .ok items => items
    | .error _ => [errorItem]
  | .error _ => [errorItem]

/-- Embedding of `ProfileMemoryTreeProvider.loadMemories`, exactly as the episodic
one: set loading, fire, fetch, install, clear loading, fire. -/
def loadMemories (st : TreeState) (resp : Except ApiError ApiResponse) :
    TreeState × List Snapshot :=
  let st1 : TreeState := { st with isLoading := true }
  let fire1 : Snapshot := (st1.isLoading, st1.memories)
  let st2 : TreeState := { st1 with memories := newMemories resp }
  let st3 : TreeState := { st2 with isLoading := false }
  let fire2 : Snapshot := (st3.isLoading, st3.memories)
  (st3, [fire1, fire2])

/-- The profile `refresh()` delegates to `loadMemories`. -/
def refresh (st : TreeState) (resp : Except ApiError ApiResponse) :
    TreeState × List Snapshot :=
  loadMemories st resp

end Profile

/-! ## The MCP registration manager (`MCPServerManager`) -/

/-- Association-list lookup keyed by server name (model of both the
`Map<string, MCPServerConfig>` registry and the `Record<string, any>`
settings object; keys are unique in both). -/
def mapLookup {α : Type} : List (String × α) → String → Option α
  | [], _ => none
  | (k, v) :: rest, key => if k = key then some v else mapLookup rest key

/-- Model of `map.set(key, v)` / `obj[key] = v`: overwrite in place, preserving
insertion order, else append. -/
def mapSet {α : Type} : List (String × α) → String → α → List (String × α)
  | [], key, v => [(key, v)]
  | (k, w) :: rest, key, v =>
    if k = key then (key, v) :: rest else (k, w) :: mapSet rest key v

/-- Model of `map.delete(key)` / `delete obj[key]`: drop the entry (a no-op when
the key is absent). -/
def mapDel {α : Type} : List (String × α) → String → List (String × α)
  | [], _ => []
  | (k, w) :: rest, key =>
    if k = key then mapDel rest key else (k, w) :: mapDel rest key

namespace MCPServerManager

/-- The interface `MCPServerConfig`: `{name, url, headers?}`. -/
structure MCPServerConfig where
  name : String
  url : String
  headers : List (String × String) := []
deriving DecidableEq

/-- The server entry `writeToVSCodeSettings` stores under the `mcp.servers`
settings key: `{type: "http", url, headers}`. -/
structure SettingsEntry where
  type : String
  url : String
  headers : List (String × String)
deriving DecidableEq

/-- Manager-visible mutable state: the in-memory `registeredServers`
registry, and the `mcp.servers` settings document used by the fallback
path (`none` models the key being absent; `configSection.get("servers", {})`
then yields the default empty object). -/
structure ManagerState where
  registeredServers : List (String × MCPServerConfig)
  settingsServers : Option (List (String × SettingsEntry))
deriving DecidableEq

/-- A user-visible notification (`vscode.window.showInformationMessage` /
`showErrorMessage`).  The JS messages wrap the server name in single
quotes; the quote characters are elided here. -/
inductive Note where
  | info (text : String)
  | error (text : String)
deriving DecidableEq

/-- Embedding of `writeToVSCodeSettings`: read `mcp.servers` (default empty), upsert
the entry `{type: "http", url, headers}`, write back. -/
def writeToVSCodeSettings (st : ManagerState) (config : MCPServerConfig) : ManagerState :=
  let servers := st.settingsServers.getD []
  let entry : SettingsEntry := { type := "http", url := config.url, headers := config.headers }
  { st with settingsServers := some (mapSet servers config.name entry) }

/-- Embedding of `removeFromVSCodeSettings`: read `mcp.servers` (default empty),
`delete servers[serverName]`, write back. -/
def removeFromVSCodeSettings (st : ManagerState) (serverName : String) : ManagerState :=
  let servers := st.settingsServers.getD []
  { st with settingsServers := some (mapDel servers serverName) }

/-- Embedding of `registerServer(config)`.  `isCursor` is the environment detected once
at construction; `hasMcpApi` is whether `vscode.mcp.registerServer` exists;
`hostFail` is `some msg` when the one external call the chosen path makes
(the Cursor capability call, the VSCode capability call, or the settings
update) rejects with that error.  Each path's inner `try` logs and
rethrows, so a host failure reaches the outer `catch`, which shows an
error notification and returns `false` with nothing stored; on success
the registry is updated, an information notification shown, and `true`
returned.  The function is total: no exception ever escapes to the
caller. -/
def registerServer (isCursor hasMcpApi : Bool) (hostFail : Option String)
    (st : ManagerState) (config : MCPServerConfig) :
    Bool × ManagerState × List Note :=
  match hostFail with
  | some msg => (false, st, [.error ("Failed to register MCP server: " ++ msg)])
  | none =>
    if isCursor then
      (true,
       { st with registeredServers := mapSet st.registeredServers config.name config },
       [.info ("MCP server " ++ config.name ++ " registered successfully in Cursor")])
    else
      let st1 := if hasMcpApi then st else writeToVSCodeSettings st config
      (true,
       { st1 with registeredServers := mapSet st1.registeredServers config.name config },
       [.info ("MCP server " ++ config.name ++ " registered successfully in VSCode")])

/-- Embedding of `unregisterServer(serverName)`: mirror of `registerServer` (Cursor
capability call, or VSCode capability call, or settings-document delete),
deleting from the registry and notifying on success, catching any host
failure into an error notification and `false`. -/
def unregisterServer (isCursor hasMcpApi : Bool) (hostFail : Option String)
    (st : ManagerState) (serverName : String) :
    Bool × ManagerState × List Note :=
  match hostFail with
  | some msg => (false, st, [.error ("Failed to unregister MCP server: " ++ msg)])
  | none =>
    if isCursor then
      (true,
       { st with registeredServers := mapDel st.registeredServers serverName },
       [.info ("MCP server " ++ serverName ++ " unregistered successfully from Cursor")])
    else
      let st1 := if hasMcpApi then st else removeFromVSCodeSettings st serverName
      (true,
       { st1 with registeredServers := mapDel st1.registeredServers serverName },
       [.info ("MCP server " ++ serverName ++ " unregistered successfully from VSCode")])

end MCPServerManager

/-! ## Concrete payloads used in counterexamples and witnesses -/

/-- Three profile records whose tags are `Zebra`, `Apple`, `mango`. -/
def tagsPayload : Json :=
  .arr [.obj [("tag", .str "Zebra")], .obj [("tag", .str "Apple")],
        .obj [("tag", .str "mango")]]

/-- The tag-group labels the profile parse produces, in order (none when
the parse throws). -/
def profileLabels (data : Json) : List String :=
  match Profile.parseMemories data with
  | .ok items => items.map (fun it => Profile.labelStr it.label)
  | .error _ => []

/-- A record carrying both a `title` key (with a falsy value) and a
`name` key. -/
def titleClashRecord : Json :=
  .obj [("title", .str ""), ("name", .str "B")]

/-- A payload whose `memories` array holds a null record followed by an
object record: two extractable records, on which the per-record parse
throws. -/
def nullRecordPayload : Json :=
  .obj [("memories", .arr [.null, .obj []])]

/-- A profile detail leaf whose id carries the `tag-` prefix, as arises
for detail leaves of a record row that lacked `id`/`uuid`/`key` and so
received the `` `${element.memoryId}-${index}` `` fallback id under a
tag-group parent. -/
def tagDetailLeafEx : Item :=
  { label := .str "📄 Content", content := .str "hello",
    memoryId := some (.str "tag-X-0-content"), isDetail := true }

/-- A detail leaf as built by `createMemoryDetailItems` for a record with
id `5` and content `hello`. -/
def detailLeafEx : Item :=
  { label := .str "📄 Content", content := .str "hello",
    memoryId := some (.str "5-content"), isDetail := true,
    contextValue := "episodicMemory" }

/-! ## Order lemmas -/

theorem lexLe_total : ∀ (a b : List Nat), lexLe a b = true ∨ lexLe b a = true
  | [], _ => Or.inl rfl
  | _ :: _, [] => Or.inr rfl
  | x :: xs, y :: ys => by
    rcases Nat.lt_trichotomy x y with h | h | h
    · exact Or.inl (by simp [lexLe, h])
    · subst h
      rcases lexLe_total xs ys with ih | ih
      · exact Or.inl (by simp [lexLe, ih])
      · exact Or.inr (by simp [lexLe, ih])
    · exact Or.inr (by simp [lexLe, h])

theorem lexLe_trans : ∀ (a b c : List Nat),
    lexLe a b = true → lexLe b c = true → lexLe a c = true
  | [], _, _, _, _ => rfl
  | _ :: _, [], _, h1, _ => by simp [lexLe] at h1
  | _ :: _, _ :: _, [], _, h2 => by simp [lexLe] at h2
  | x :: xs, y :: ys, z :: zs, h1, h2 => by
    simp only [lexLe] at h1 h2 ⊢
    rcases Nat.lt_trichotomy x y with hxy | hxy | hxy
    · rcases Nat.lt_trichotomy y z with hyz | hyz | hyz
      · simp [Nat.lt_trans hxy hyz]
      · subst hyz; simp [hxy]
      · simp [Nat.lt_asymm hyz, hyz] at h2
    · subst hxy
      rcases Nat.lt_trichotomy x z with hxz | hxz | hxz
      · simp [hxz]
      · subst hxz
        simp only [Nat.lt_irrefl, if_false] at h1 h2 ⊢
        exact lexLe_trans xs ys zs h1 h2
      · simp [Nat.lt_asymm hxz, hxz] at h2
    · simp [Nat.lt_asymm hxy, hxy] at h1

theorem itemLe_total (a b : Item) :
    Profile.itemLe a b = true ∨ Profile.itemLe b a = true :=
  lexLe_total _ _

theorem itemLe_trans (a b c : Item) :
    Profile.itemLe a b = true → Profile.itemLe b c = true →
    Profile.itemLe a c = true :=
  lexLe_trans _ _ _

theorem mem_insLe {α : Type} (le : α → α → Bool) (a x : α) :
    ∀ l : List α, x ∈ insLe le a l ↔ x = a ∨ x ∈ l
  | [] => by simp [insLe]
  | b :: l => by
    simp only [insLe]
    split
    · simp [List.mem_cons]
    · rw [List.mem_cons, mem_insLe le a x l, List.mem_cons]
      tauto

theorem pairwise_insLe {α : Type} (le : α → α → Bool)
    (htot : ∀ x y, le x y = true ∨ le y x = true)
    (htrans : ∀ x y z, le x y = true → le y z = true → le x z = true)
    (a : α) :
    ∀ l : List α, l.Pairwise (fun x y => le x y = true) →
      (insLe le a l).Pairwise (fun x y => le x y = true)
  | [], _ => by simp [insLe]
  | b :: l, h => by
    rw [List.pairwise_cons] at h
    obtain ⟨hb, hl⟩ := h
    simp only [insLe]
    split
    case isTrue hab =>
      rw [List.pairwise_cons]
      refine ⟨?_, List.pairwise_cons.mpr ⟨hb, hl⟩⟩
      intro x hx
      rcases List.mem_cons.mp hx with rfl | hx
      · exact hab
      · exact htrans a b x hab (hb x hx)
    case isFalse hab =>
      have hba : le b a = true := by
        rcases htot a b with h | h
        · exact absurd h hab
        · exact h
      rw [List.pairwise_cons]
      refine ⟨?_, pairwise_insLe le htot htrans a l hl⟩
      intro x hx
      rcases (mem_insLe le a x l).mp hx with rfl | hx
      · exact hba
      · exact hb x hx

theorem pairwise_sortLe {α : Type} (le : α → α → Bool)
    (htot : ∀ x y, le x y = true ∨ le y x = true)
    (htrans : ∀ x y z, le x y = true → le y z = true → le x z = true) :
    ∀ l : List α, (sortLe le l).Pairwise (fun x y => le x y = true)
  | [] => by simp [sortLe]
  | a :: l =>
    pairwise_insLe le htot htrans a _ (pairwise_sortLe le htot htrans l)

theorem mapDel_of_lookup_none {α : Type} (key : String) :
    ∀ l : List (String × α), mapLookup l key = none → mapDel l key = l
  | [], _ => rfl
  | (k, v) :: rest, h => by
    simp only [mapLookup] at h
    split at h
    · exact absurd h (by simp)
    case isFalse hk =>
      simp only [mapDel]
      rw [if_neg hk, mapDel_of_lookup_none key rest h]

theorem exceptMapM_length {γ δ ε : Type} (f : γ → Except ε δ) :
    ∀ (l : List γ) (out : List δ), l.mapM f = .ok out → out.length = l.length
  | [], out, h => by
    simp only [List.mapM_nil, pure, Except.pure, Except.ok.injEq] at h
    subst h
    rfl
  | a :: l, out, h => by
    rw [List.mapM_cons] at h
    cases hfa : f a with
    | error e => rw [hfa] at h; simp [Bind.bind, Except.bind] at h
    | ok x =>
      rw [hfa] at h
      cases hml : l.mapM f with
      | error e =>
        rw [hml] at h
        simp [Bind.bind, Except.bind, pure, Except.pure] at h
      | ok xs =>
        rw [hml] at h
        simp only [Bind.bind, Except.bind, pure, Except.pure, Except.ok.injEq] at h
        subst h
        simp [exceptMapM_length f l xs hml]

theorem exceptMapM_ok_mem {γ δ ε : Type} (f : γ → Except ε δ) :
    ∀ (l : List γ) (out : List δ), l.mapM f = .ok out →
      ∀ x ∈ l, ∃ y, f x = .ok y
  | [], _, _ => by
    intro x hx
    simp at hx
  | a :: l, out, h => by
    rw [List.mapM_cons] at h
    intro x hx
    cases hfa : f a with
    | error e => rw [hfa] at h; simp [Bind.bind, Except.bind] at h
    | ok yv =>
      rw [hfa] at h
      cases hml : l.mapM f with
      | error e =>
        rw [hml] at h
        simp [Bind.bind, Except.bind, pure, Except.pure] at h
      | ok xs =>
        rcases List.mem_cons.mp hx with rfl | hx
        · exact ⟨yv, hfa⟩
        · exact exceptMapM_ok_mem f l xs hml x hx

theorem mem_enumFrom_of_mem {α : Type} (x : α) :
    ∀ (l : List α) (n : Nat), x ∈ l → ∃ i, (i, x) ∈ l.enumFrom n
  | a :: l, n, h => by
    rcases List.mem_cons.mp h with rfl | h
    · exact ⟨n, by simp [List.enumFrom]⟩
    · obtain ⟨i, hi⟩ := mem_enumFrom_of_mem x l (n + 1) h
      exact ⟨i, by simp only [List.enumFrom, List.mem_cons]; exact Or.inr hi⟩

theorem mem_enum_of_mem {α : Type} (x : α) (l : List α) (h : x ∈ l) :
    ∃ i, (i, x) ∈ l.enum :=
  mem_enumFrom_of_mem x l 0 h

theorem firstTruthy_pick (m fallback : Json) (k : String) (ks2 : List String) :
    ∀ ks1 : List String, (∀ k2 ∈ ks1, jsTruthy (jsGet m k2) = false) →
      jsTruthy (jsGet m k) = true →
      firstTruthy m (ks1 ++ k :: ks2) fallback = jsGet m k
  | [], _, hk => by simp [firstTruthy, jsOr, hk]
  | k2 :: ks1, h, hk => by
    have h2 : jsTruthy (jsGet m k2) = false := h k2 (List.mem_cons_self _ _)
    simp only [List.cons_append, firstTruthy, jsOr, h2, Bool.false_eq_true, if_false]
    exact firstTruthy_pick m fallback k ks2 ks1
      (fun k3 hk3 => h k3 (List.mem_cons_of_mem _ hk3)) hk

theorem firstTruthy_fallback (m fallback : Json) :
    ∀ ks : List String, (∀ k ∈ ks, jsTruthy (jsGet m k) = false) →
      firstTruthy m ks fallback = fallback
  | [], _ => rfl
  | k :: ks, h => by
    have hk : jsTruthy (jsGet m k) = false := h k (List.mem_cons_self _ _)
    simp only [firstTruthy, jsOr, hk, Bool.false_eq_true, if_false]
    exact firstTruthy_fallback m fallback ks
      (fun k2 hk2 => h k2 (List.mem_cons_of_mem _ hk2))

theorem createMemoryDetailItems_length (it : Item) (now cv : String) :
    createMemoryDetailItems it now cv ≠ [] := by
  simp only [createMemoryDetailItems]
  intro h
  have hl := congrArg List.length h
  simp only [List.length_append, List.length_cons, List.length_nil] at hl
  omega

/-! ## Claim theorems -/

/-- Claim C5: every call to `refresh()` on either tree model emits exactly
two tree-changed notifications — one immediately, observed with the
loading flag set and the old node list still in place, and one on
completion, observed with the loading flag cleared and the node list
already replaced — on the success path and the failure path alike (the
snapshot list is the same for `Except.ok` and `Except.error` arguments,
and `newMemories` covers both). -/
theorem refresh_two_notifications :
    ∀ (st : TreeState) (resp : Except ApiError ApiResponse),
      (Episodic.refresh st resp).2 =
        [(true, st.memories), (false, (Episodic.refresh st resp).1.memories)] ∧
      (Episodic.refresh st resp).1.memories = Episodic.newMemories resp ∧
      (Episodic.refresh st resp).1.isLoading = false ∧
      (Profile.refresh st resp).2 =
        [(true, st.memories), (false, (Profile.refresh st resp).1.memories)] ∧
      (Profile.refresh st resp).1.memories = Profile.newMemories resp ∧
      (Profile.refresh st resp).1.isLoading = false := by
  intro st resp
  exact ⟨rfl, rfl, rfl, rfl, rfl, rfl⟩

/-- Claim C6: any exception from the remote data client during a refresh
is caught locally by `loadMemories` — modelled by `refresh` being a total
function of the failure value, so nothing propagates to the caller — and
the node list is replaced by the single error row, whose `content` is the
string `error`, in both tree models. -/
theorem refresh_error_single_error_node :
    ∀ (st : TreeState) (e : ApiError),
      (Episodic.refresh st (.error e)).1.memories = [Episodic.errorItem] ∧
      Episodic.errorItem.content = .str "error" ∧
      (Profile.refresh st (.error e)).1.memories = [Profile.errorItem] ∧
      Profile.errorItem.content = .str "error" := by
  intro st e
  exact ⟨rfl, rfl, rfl, rfl⟩

/-- Claim C7: in every state of either tree model, the top-level list
returned by `getChildren` with no node starts with exactly one sentinel:
its first element is the refresh sentinel precisely when no fetch is in
flight and the loading sentinel precisely when one is, never both. -/
theorem topLevel_sentinel_first :
    ∀ (st : TreeState) (now : String),
      Episodic.getChildren st none now =
        (if st.isLoading then Episodic.loadingItem else Episodic.refreshItem) :: st.memories ∧
      ((if st.isLoading then Episodic.loadingItem else Episodic.refreshItem).memoryId =
          some (.str "refresh") ↔ st.isLoading = false) ∧
      ((if st.isLoading then Episodic.loadingItem else Episodic.refreshItem).memoryId =
          some (.str "loading") ↔ st.isLoading = true) ∧
      Profile.getChildren st none now =
        (if st.isLoading then Profile.loadingItem else Profile.refreshItem) :: st.memories ∧
      ((if st.isLoading then Profile.loadingItem else Profile.refreshItem).memoryId =
          some (.str "refresh") ↔ st.isLoading = false) ∧
      ((if st.isLoading then Profile.loadingItem else Profile.refreshItem).memoryId =
          some (.str "loading") ↔ st.isLoading = true) := by
  intro st now
  refine ⟨rfl, ?_, ?_, rfl, ?_, ?_⟩ <;>
    cases st.isLoading <;> decide

/-- Claim C9: `registerServer` and `unregisterServer` are total — no
exception reaches the caller — and on a successful host interaction
(`hostFail = none`) they store, respectively remove, the registry entry
and return `true`, while on any host failure they return `false`, leave
the state untouched, and emit exactly the user-visible error
notification. -/
theorem registerUnregister_report :
    ∀ (ic api : Bool) (st : MCPServerManager.ManagerState)
      (config : MCPServerManager.MCPServerConfig) (name msg : String),
      (MCPServerManager.registerServer ic api none st config).1 = true ∧
      (MCPServerManager.registerServer ic api none st config).2.1.registeredServers =
        mapSet st.registeredServers config.name config ∧
      MCPServerManager.registerServer ic api (some msg) st config =
        (false, st, [.error ("Failed to register MCP server: " ++ msg)]) ∧
      (MCPServerManager.unregisterServer ic api none st name).1 = true ∧
      (MCPServerManager.unregisterServer ic api none st name).2.1.registeredServers =
        mapDel st.registeredServers name ∧
      MCPServerManager.unregisterServer ic api (some msg) st name =
        (false, st, [.error ("Failed to unregister MCP server: " ++ msg)]) := by
  intro ic api st config name msg
  cases ic <;> cases api <;>
    exact ⟨rfl, rfl, rfl, rfl, rfl, rfl⟩

/-- Claim C10: in the settings-fallback environment (not Cursor, no
`vscode.mcp.unregisterServer`), unregistering a name that was never
registered — absent from the registry and from the `mcp.servers`
settings object — still succeeds: the settings deletion is a no-op, the
call returns `true`, the registry is unchanged, and no error notification
is emitted. -/
theorem unregister_unknown_name_succeeds :
    ∀ (st : MCPServerManager.ManagerState) (name : String),
      mapLookup st.registeredServers name = none →
      mapLookup (st.settingsServers.getD []) name = none →
      (MCPServerManager.unregisterServer false false none st name).1 = true ∧
      (MCPServerManager.unregisterServer false false none st name).2.1.registeredServers =
        st.registeredServers ∧
      (MCPServerManager.unregisterServer false false none st name).2.1.settingsServers =
        some (st.settingsServers.getD []) ∧
      ∀ t, MCPServerManager.Note.error t ∉
        (MCPServerManager.unregisterServer false false none st name).2.2 := by
  intro st name h1 h2
  refine ⟨rfl, ?_, ?_, ?_⟩
  · simp only [MCPServerManager.unregisterServer, MCPServerManager.removeFromVSCodeSettings,
      Bool.false_eq_true, if_false]
    exact mapDel_of_lookup_none name st.registeredServers h1
  · simp only [MCPServerManager.unregisterServer, MCPServerManager.removeFromVSCodeSettings,
      Bool.false_eq_true, if_false]
    rw [mapDel_of_lookup_none name _ h2]
  · intro t ht
    simp only [MCPServerManager.unregisterServer, Bool.false_eq_true, if_false,
      List.mem_singleton] at ht
    exact MCPServerManager.Note.noConfusion ht

/-- Closed witness for claim C10: unregistering the never-registered name
`ghost` from an empty manager state in the settings-fallback environment. -/
theorem unregister_unknown_name_succeeds_witness :
    (MCPServerManager.unregisterServer false false none ⟨[], none⟩ "ghost").1 = true ∧
    (MCPServerManager.unregisterServer false false none ⟨[], none⟩ "ghost").2.1.registeredServers =
      ([] : List (String × MCPServerManager.MCPServerConfig)) ∧
    ∀ t, MCPServerManager.Note.error t ∉
      (MCPServerManager.unregisterServer false false none ⟨[], none⟩ "ghost").2.2 := by
  have h := unregister_unknown_name_succeeds ⟨[], none⟩ "ghost" rfl rfl
  exact ⟨h.1, h.2.1, h.2.2.2⟩

/-- Counterexample to claim C3 as stated: the payload
`{memories: [null, {}]}` has two extractable records, but the per-record
parse reads `memory.title` on the null record and throws, so no node
list of the claimed length exists — the tree model installs the single
error row (length 1, not 2). -/
theorem nullRecords_length_counterexample :
    selectMemories "episodic_memory" nullRecordPayload = [.null, .obj []] ∧
    Episodic.parseMemories nullRecordPayload =
      .error "TypeError: Cannot read properties of null" ∧
    Episodic.newMemories
      (.ok { data := nullRecordPayload, status := 200, statusText := "OK" }) =
      [Episodic.errorItem] ∧
    (Episodic.newMemories
        (.ok { data := nullRecordPayload, status := 200, statusText := "OK" })).length ≠
      (selectMemories "episodic_memory" nullRecordPayload).length := by
  decide

/-- Claim C3 (amended): normalization handles every payload shape by
probing, in fixed priority order, `memories`, the domain-specific key,
`data`, `results`, using the first whose value is a sequence; a bare
sequence is used directly; a falsy payload (or one yielding no records)
produces the empty sentinel; any other mapping falls back to its
object-typed field values; and the episodic node list has one node per
extracted record *whenever the per-record parse succeeds* — success
forces every selected record to be non-null with a string-valued content
probe, and on a payload violating that (a null record, or a truthy
non-string content) the parser throws and the tree model installs the
single error row instead (which is what the counterexample forces the
length clause to concede).  Priority is expressed by each probe clause
assuming only that the higher-priority probes failed, so a
higher-priority match always wins. -/
theorem selectMemories_priority_and_length :
    (∀ (dk : String) (l : List Json), selectMemories dk (.arr l) = l) ∧
    (∀ (dk : String) (fs : List (String × Json)) (l : List Json),
      probeKey (.obj fs) "memories" = some l →
      selectMemories dk (.obj fs) = l) ∧
    (∀ (dk : String) (fs : List (String × Json)) (l : List Json),
      probeKey (.obj fs) "memories" = none →
      probeKey (.obj fs) dk = some l →
      selectMemories dk (.obj fs) = l) ∧
    (∀ (dk : String) (fs : List (String × Json)) (l : List Json),
      probeKey (.obj fs) "memories" = none →
      probeKey (.obj fs) dk = none →
      probeKey (.obj fs) "data" = some l →
      selectMemories dk (.obj fs) = l) ∧
    (∀ (dk : String) (fs : List (String × Json)) (l : List Json),
      probeKey (.obj fs) "memories" = none →
      probeKey (.obj fs) dk = none →
      probeKey (.obj fs) "data" = none →
      probeKey (.obj fs) "results" = some l →
      selectMemories dk (.obj fs) = l) ∧
    (∀ (dk : String) (fs : List (String × Json)),
      probeKey (.obj fs) "memories" = none →
      probeKey (.obj fs) dk = none →
      probeKey (.obj fs) "data" = none →
      probeKey (.obj fs) "results" = none →
      selectMemories dk (.obj fs) = (fs.map (fun f => f.2)).filter jsIsObjectLike) ∧
    (∀ d : Json, jsTruthy d = false →
      Episodic.parseMemories d = .ok [Episodic.emptyItem] ∧
      Profile.parseMemories d = .ok [Profile.emptyItem]) ∧
    (∀ d : Json, jsTruthy d = true →
      (selectMemories "episodic_memory" d = [] →
        Episodic.parseMemories d = .ok [Episodic.emptyItem]) ∧
      (selectMemories "profile_memory" d = [] →
        Profile.parseMemories d = .ok [Profile.emptyItem])) ∧
    (∀ (d : Json) (items : List Item), jsTruthy d = true →
      Episodic.parseMemories d = .ok items →
      selectMemories "episodic_memory" d ≠ [] →
      items.length = (selectMemories "episodic_memory" d).length) ∧
    (∀ (d : Json) (items : List Item) (m : Json), jsTruthy d = true →
      Episodic.parseMemories d = .ok items →
      m ∈ selectMemories "episodic_memory" d →
      m ≠ Json.null ∧ ∃ str2, Episodic.contentOf m = .str str2) ∧
    (∀ (r : ApiResponse) (e : String),
      (Episodic.parseMemories r.data = .error e →
        Episodic.newMemories (.ok r) = [Episodic.errorItem]) ∧
      (Profile.parseMemories r.data = .error e →
        Profile.newMemories (.ok r) = [Profile.errorItem])) := by
  refine ⟨fun dk l => rfl, ?_, ?_, ?_, ?_, ?_, ?_, ?_, ?_, ?_, ?_⟩
  · intro dk fs l h1
    simp [selectMemories, h1]
  · intro dk fs l h1 h2
    simp [selectMemories, h1, h2]
  · intro dk fs l h1 h2 h3
    simp [selectMemories, h1, h2, h3]
  · intro dk fs l h1 h2 h3 h4
    simp [selectMemories, h1, h2, h3, h4]
  · intro dk fs h1 h2 h3 h4
    simp [selectMemories, h1, h2, h3, h4, jsValues]
  · intro d hF
    constructor
    · simp [Episodic.parseMemories, hF]
    · simp [Profile.parseMemories, hF]
  · intro d hT
    constructor
    · intro hsel
      simp [Episodic.parseMemories, hT, hsel]
    · intro hsel
      simp [Profile.parseMemories, hT, hsel]
  · intro d items hT hp hne
    have h0 : ¬ (selectMemories "episodic_memory" d).length = 0 := by
      simpa [List.length_eq_zero] using hne
    simp only [Episodic.parseMemories, hT, Bool.true_eq_false, if_false, h0] at hp
    rw [exceptMapM_length _ _ _ hp]
    exact List.enum_length
  · intro d items m hT hp hm
    by_cases h0 : (selectMemories "episodic_memory" d).length = 0
    · rw [List.length_eq_zero] at h0
      rw [h0] at hm
      simp at hm
    · simp only [Episodic.parseMemories, hT, Bool.true_eq_false, if_false, h0] at hp
      obtain ⟨i, hi⟩ := mem_enum_of_mem m _ hm
      obtain ⟨y, hy⟩ := exceptMapM_ok_mem _ _ _ hp (i, m) hi
      simp only at hy
      split at hy
      · exact absurd hy (by simp)
      next hnull =>
        refine ⟨hnull, ?_⟩
        split at hy
        next str2 heq => exact ⟨str2, heq⟩
        next => exact absurd hy (by simp)
  · intro r e
    constructor
    · intro h
      simp [Episodic.newMemories, h]
    · intro h
      simp [Profile.newMemories, h]

/-- Closed witness for the amended claim C3: concrete payloads exercising
the bare sequence, the `memories`-over-`data` priority, the domain key,
the object-of-objects fallback, the falsy payload, the node-per-record
length on a succeeding parse, the non-null/string-content consequence of
success, and the error-row conversion on the throwing payload. -/
theorem selectMemories_priority_and_length_witness :
    selectMemories "episodic_memory" (.arr [.obj [("id", .str "1")]]) = [.obj [("id", .str "1")]] ∧
    selectMemories "episodic_memory"
      (.obj [("data", .arr [.obj []]), ("memories", .arr [.obj [("id", .str "m")]])]) =
      [.obj [("id", .str "m")]] ∧
    selectMemories "profile_memory"
      (.obj [("profile_memory", .arr [.obj [("tag", .str "t")]]), ("data", .arr [.obj [], .obj []])]) =
      [.obj [("tag", .str "t")]] ∧
    selectMemories "episodic_memory"
      (.obj [("a", .obj [("x", .num 1)]), ("b", .str "scalar"), ("c", .obj [])]) =
      [.obj [("x", .num 1)], .obj []] ∧
    Episodic.parseMemories .null = .ok [Episodic.emptyItem] ∧
    (∀ items : List Item,
      Episodic.parseMemories (.obj [("memories", .arr [.obj [("content", .str "c")]])]) = .ok items →
      items.length = 1) ∧
    ((.obj [("content", .str "c")] : Json) ≠ Json.null ∧
      ∃ str2, Episodic.contentOf (.obj [("content", .str "c")]) = .str str2) ∧
    Episodic.newMemories
      (.ok { data := nullRecordPayload, status := 200, statusText := "OK" }) =
      [Episodic.errorItem] := by
  have h := selectMemories_priority_and_length
  refine ⟨h.1 "episodic_memory" _, ?_, ?_, ?_, (h.2.2.2.2.2.2.1 .null rfl).1, ?_, ?_, ?_⟩
  · exact h.2.1 "episodic_memory" _ _ rfl
  · exact h.2.2.1 "profile_memory" _ _ rfl rfl
  · exact h.2.2.2.2.2.1 "episodic_memory" _ rfl rfl rfl rfl
  · intro items hp
    have := h.2.2.2.2.2.2.2.2.1
      (.obj [("memories", .arr [.obj [("content", .str "c")]])]) items rfl hp (by decide)
    simpa using this
  · exact h.2.2.2.2.2.2.2.2.2.1
      (.obj [("memories", .arr [.obj [("content", .str "c")]])])
      [{ label := .str "Memory 1", content := .str "c", memoryId := some (.str "0"),
         contextValue := "episodicMemory" }]
      (.obj [("content", .str "c")]) rfl (by decide) (by decide)
  · exact (h.2.2.2.2.2.2.2.2.2.2
      { data := nullRecordPayload, status := 200, statusText := "OK" }
      "TypeError: Cannot read properties of null").1 (by decide)

/-- Counterexample to claim C4 as stated: the probes use JS `||`, which
skips a key that is present but falsy.  The record
`{title: "", name: "B"}` contains both `title` and `name`, yet the title
probe yields `name`'s value `B`, not `title`'s value `""`. -/
theorem fieldProbe_title_counterexample :
    jsGet titleClashRecord "title" = .str "" ∧
    Episodic.titleOf titleClashRecord 0 = .str "B" ∧
    Episodic.titleOf titleClashRecord 0 ≠ .str "" := by
  decide

/-- Claim C4 (amended): for every non-null record (a null record makes
the parser throw at its first field read before any probe, see C3),
field-synonym probing is order-stable over the *truthy* keys across the
full synonym lists: each probe chain (title over
title/name/subject/heading/label, content over
content/description/text/body/message/details/summary, identifier over
id/uuid/key) equals the generic first-truthy-key chain, which picks the
first key in order whose value is truthy whatever keys precede or follow
it, and falls back to the documented default — `Memory (index+1)`, the
record pretty-printed, the zero-based index — when every probe is falsy;
in particular a record containing both `title` and `name` yields
`title`'s value whenever that value is truthy. -/
theorem fieldProbe_truthy_order :
    (∀ (m : Json) (i : Nat), Episodic.titleOf m i =
      firstTruthy m ["title", "name", "subject", "heading", "label"]
        (.str ("Memory " ++ toString (i + 1)))) ∧
    (∀ m : Json, Episodic.contentOf m =
      firstTruthy m
        ["content", "description", "text", "body", "message", "details", "summary"]
        (.str (stringifyJson m))) ∧
    (∀ (m : Json) (i : Nat), Episodic.idOf m i =
      firstTruthy m ["id", "uuid", "key"] (.str (toString i))) ∧
    (∀ (m fallback : Json) (ks1 : List String) (k : String) (ks2 : List String),
      (∀ k2 ∈ ks1, jsTruthy (jsGet m k2) = false) →
      jsTruthy (jsGet m k) = true →
      firstTruthy m (ks1 ++ k :: ks2) fallback = jsGet m k) ∧
    (∀ (m fallback : Json) (ks : List String), m ≠ Json.null →
      (∀ k ∈ ks, jsTruthy (jsGet m k) = false) →
      firstTruthy m ks fallback = fallback) ∧
    (∀ (m : Json) (i : Nat) (v : Json), jsGet m "title" = v → jsTruthy v = true →
      Episodic.titleOf m i = v) := by
  refine ⟨fun m i => rfl, fun m => rfl, fun m i => rfl, ?_, ?_, ?_⟩
  · intro m fallback ks1 k ks2 h hk
    exact firstTruthy_pick m fallback k ks2 ks1 h hk
  · intro m fallback ks hnull h
    exact firstTruthy_fallback m fallback ks h
  · intro m i v h hv
    simp [Episodic.titleOf, jsOr, h, hv]

/-- Closed witness for the amended claim C4: the probe chains evaluated
at records picking a mid-chain key (`heading` with the three earlier
keys falsy, `message` with the four earlier keys falsy, `uuid` with `id`
falsy), at all-falsy records, and at the title/name clash with a truthy
title. -/
theorem fieldProbe_truthy_order_witness :
    Episodic.titleOf (.obj [("title", .str ""), ("heading", .str "H")]) 0 = .str "H" ∧
    Episodic.contentOf (.obj [("text", .num 0), ("message", .str "M")]) = .str "M" ∧
    Episodic.idOf (.obj [("id", .str ""), ("uuid", .str "u1")]) 2 = .str "u1" ∧
    Episodic.titleOf (.obj [("other", .str "x")]) 0 = .str "Memory 1" ∧
    Episodic.idOf (.obj []) 4 = .str "4" ∧
    Episodic.titleOf (.obj [("title", .str "T"), ("name", .str "N")]) 5 = .str "T" := by
  have h := fieldProbe_truthy_order
  refine ⟨?_, ?_, ?_, ?_, ?_, h.2.2.2.2.2 _ 5 _ rfl rfl⟩
  · rw [h.1]
    exact h.2.2.2.1 _ _ ["title", "name", "subject"] "heading" ["label"]
      (by decide) (by decide)
  · rw [h.2.1]
    exact h.2.2.2.1 _ _ ["content", "description", "text", "body"] "message"
      ["details", "summary"] (by decide) (by decide)
  · rw [h.2.2.1]
    exact h.2.2.2.1 _ _ ["id"] "uuid" ["key"] (by decide) (by decide)
  · rw [h.1]
    exact h.2.2.2.2.1 _ _ _ (by decide) (by decide)
  · rw [h.2.2.1]
    exact h.2.2.2.2.1 _ _ _ (by decide) (by decide)

/-- Counterexample to claim C1 as stated: the profile tree sorts
tag-groups with `a.label.localeCompare(b.label)` (locale-aware, letters
compared case-insensitively at primary strength), not with the default
case-sensitive code-unit string order.  For tags `Zebra`, `Apple`,
`mango` the output is `Apple, mango, Zebra`; under the case-sensitive
default code-unit order `Zebra` (code unit 90) would come before `mango`
(code unit 109), so the adjacent pair `mango, Zebra` violates the claimed
order. -/
theorem tagGroupSort_not_codeUnit_order :
    profileLabels tagsPayload = ["Apple", "mango", "Zebra"] ∧
    ¬ (profileLabels tagsPayload).Pairwise (fun a b => codeUnitLe a b = true) := by
  constructor
  · decide
  · decide

/-- Claim C1 (amended): the top-level tag-group nodes produced by the
profile tree's parse step are sorted by label ascending under the
locale-aware default-locale comparison of `localeCompare` (modelled by
`locLe`), which compares letters case-insensitively at primary strength
rather than by case-sensitive code units; the parse is a pure function,
so the output is deterministic and identical across repeated runs on the
same input, and for tags `Zebra, Apple, mango` the order is
`Apple, mango, Zebra`. -/
theorem tagGroupSort_localeCompare_sorted :
    (∀ data : Json, (profileLabels data).Pairwise (fun a b => locLe a b = true)) ∧
    (∀ d₁ d₂ : Json, d₁ = d₂ → Profile.parseMemories d₁ = Profile.parseMemories d₂) ∧
    profileLabels tagsPayload = ["Apple", "mango", "Zebra"] := by
  refine ⟨?_, fun d₁ d₂ h => by rw [h], by decide⟩
  intro data
  unfold profileLabels
  cases hp : Profile.parseMemories data with
  | error e => simp
  | ok items =>
    rw [Profile.parseMemories] at hp
    split at hp
    · injection hp with h
      subst h
      simp
    · by_cases h0 : (selectMemories "profile_memory" data).length = 0
      · simp only [h0, if_true] at hp
        injection hp with h
        subst h
        simp
      · simp only [h0, if_false] at hp
        split at hp
        · exact absurd hp (by simp)
        · injection hp with h
          subst h
          exact List.Pairwise.map _ (fun a b h => h)
            (pairwise_sortLe Profile.itemLe itemLe_total itemLe_trans _)

/-- Closed witness for the amended claim C1, applying the sortedness and
determinism clauses at the `Zebra, Apple, mango` payload. -/
theorem tagGroupSort_localeCompare_sorted_witness :
    (profileLabels tagsPayload).Pairwise (fun a b => locLe a b = true) ∧
    Profile.parseMemories tagsPayload = Profile.parseMemories tagsPayload :=
  ⟨tagGroupSort_localeCompare_sorted.1 tagsPayload,
   tagGroupSort_localeCompare_sorted.2.1 tagsPayload tagsPayload rfl⟩

/-- Counterexample to claim C2 as stated: `getChildren` tests only the
node's id, never `isDetail`, so a detail leaf (id `5-content`, a record
id suffixed with `-content`) gets a non-empty child list — its own
content/id/timestamp detail items — instead of the claimed empty list. -/
theorem detailLeaf_children_counterexample :
    detailLeafEx.isDetail = true ∧
    Episodic.getChildren ⟨[], false⟩ (some detailLeafEx) "timestamp" ≠ [] := by
  decide

/-- Claim C2 (amended): `getChildren` on a sentinel node (id `refresh`
or `loading`) returns the empty list in both tree models; a detail leaf
node is otherwise treated like a record node — because only the id value
is examined, never `isDetail` — so the episodic tree, and the profile
tree whenever the leaf's id does not start with `tag-`, return the
leaf's own never-empty detail-item list; but a profile detail leaf whose
id does carry the `tag-` prefix (which arises for detail leaves of a
record row that received the `` `${element.memoryId}-${index}` ``
fallback id under a tag-group parent) takes the tag-group branch, finds
no attached `tagMemories`, and returns the empty list. -/
theorem getChildren_sentinel_empty_detailLeaf_nonempty :
    (∀ (st : TreeState) (now : String) (it : Item),
      it.memoryId = some (.str "refresh") ∨ it.memoryId = some (.str "loading") →
      Episodic.getChildren st (some it) now = [] ∧
      Profile.getChildren st (some it) now = []) ∧
    (∀ (st : TreeState) (now : String) (it : Item),
      it.isDetail = true →
      optTruthy it.memoryId = true →
      it.memoryId ≠ some (.str "refresh") →
      it.memoryId ≠ some (.str "loading") →
      Episodic.getChildren st (some it) now =
        createMemoryDetailItems it now "episodicMemory" ∧
      Episodic.getChildren st (some it) now ≠ []) ∧
    (∀ (st : TreeState) (now : String) (it : Item),
      it.isDetail = true →
      optTruthy it.memoryId = true →
      it.memoryId ≠ some (.str "refresh") →
      it.memoryId ≠ some (.str "loading") →
      strBegins (optTemplate it.memoryId) "tag-" = false →
      Profile.getChildren st (some it) now =
        createMemoryDetailItems it now "profileMemory" ∧
      Profile.getChildren st (some it) now ≠ []) ∧
    (∀ (st : TreeState) (now : String) (it : Item),
      optTruthy it.memoryId = true →
      strBegins (optTemplate it.memoryId) "tag-" = true →
      it.tagMemories = none →
      Profile.getChildren st (some it) now = []) := by
  refine ⟨?_, ?_, ?_, ?_⟩
  · intro st now it h
    rcases h with h | h
    · constructor
      · simp [Episodic.getChildren, h]
      · simp [Profile.getChildren, h, optTemplate, jsTemplate, strBegins, leadChars]
    · constructor
      · simp [Episodic.getChildren, h]
      · simp [Profile.getChildren, h, optTemplate, jsTemplate, strBegins, leadChars]
  · intro st now it hd htr hr hl
    constructor
    · simp [Episodic.getChildren, htr, hr, hl]
    · rw [Episodic.getChildren]
      simp only [htr, ne_eq, true_and]
      rw [if_pos ⟨hr, hl⟩]
      exact createMemoryDetailItems_length it now "episodicMemory"
  · intro st now it hd htr hr hl htag
    constructor
    · simp [Profile.getChildren, htr, hr, hl, htag]
    · rw [Profile.getChildren]
      simp only [htr, hr, hl, htag]
      simp only [ne_eq, true_and, Bool.false_eq_true, and_false, if_false]
      rw [if_pos ⟨hr, hl, trivial⟩]
      exact createMemoryDetailItems_length it now "profileMemory"
  · intro st now it htr htag hnone
    simp [Profile.getChildren, htr, htag, hnone]

/-- Closed witness for the amended claim C2: the refresh and loading
sentinels have no children; the concrete detail leaf `detailLeafEx` has
a non-empty child list in both trees; the `tag-`-prefixed profile detail
leaf `tagDetailLeafEx` has an empty child list. -/
theorem getChildren_sentinel_empty_detailLeaf_nonempty_witness :
    Episodic.getChildren ⟨[], true⟩ (some Episodic.refreshItem) "timestamp" = [] ∧
    Profile.getChildren ⟨[], true⟩ (some Profile.loadingItem) "timestamp" = [] ∧
    Episodic.getChildren ⟨[], false⟩ (some detailLeafEx) "timestamp" ≠ [] ∧
    Profile.getChildren ⟨[], false⟩ (some detailLeafEx) "timestamp" ≠ [] ∧
    Profile.getChildren ⟨[], false⟩ (some tagDetailLeafEx) "timestamp" = [] := by
  have h1 := (getChildren_sentinel_empty_detailLeaf_nonempty.1 ⟨[], true⟩ "timestamp"
    Episodic.refreshItem (Or.inl rfl)).1
  have h2 := (getChildren_sentinel_empty_detailLeaf_nonempty.1 ⟨[], true⟩ "timestamp"
    Profile.loadingItem (Or.inr rfl)).2
  have h3 := (getChildren_sentinel_empty_detailLeaf_nonempty.2.1 ⟨[], false⟩ "timestamp"
    detailLeafEx rfl rfl (by decide) (by decide)).2
  have h4 := (getChildren_sentinel_empty_detailLeaf_nonempty.2.2.1 ⟨[], false⟩ "timestamp"
    detailLeafEx rfl rfl (by decide) (by decide) (by decide)).2
  have h5 := getChildren_sentinel_empty_detailLeaf_nonempty.2.2.2 ⟨[], false⟩ "timestamp"
    tagDetailLeafEx (by decide) (by decide) rfl
  exact ⟨h1, h2, h3, h4, h5⟩

